import Mathlib

/-!
A shallow embedding of the two 6502 cores of `kneelian/6502-cpp`.

* `MainCpp`  embeds `src/main.cpp`  (the switch-based, immediate-only core).
* `Hpp6502`  embeds `src/6502.hpp` (the table-driven core with stubbed addressing modes).

Machine integers are natural numbers; every place where C++ converts a value
back to `uint8_t` / `uint16_t` and the value can be out of range is an explicit
reduction modulo `2^8` / `2^16`.  Arithmetic that can go below zero is done in `Int`
(the promoted `int` of the C++ expression) and converted back with `u8`.
The 64 KiB memory array is a function from addresses to bytes.  Logging
(`std::cerr`, `fmt::print`, the `_log_*` members) has no effect on the state and is
left out.
-/

/-- Conversion of a promoted `int` back to `uint8_t`. -/
def u8 (z : Int) : Nat := (z % 256).toNat

namespace MainCpp

/-! Flag masks: the macros `_CARRY` = 1 up to `_NEGA` = 128. -/

def _CARRY   : Nat := 1
def _ZERO    : Nat := 2
def _INT_DIS : Nat := 4
def _DECIM   : Nat := 8
def _BREAK   : Nat := 16
def _RESERV  : Nat := 32
def _OVERFL  : Nat := 64
def _NEGA    : Nat := 128

/-- The processor of `main.cpp`: `struct CPU` together with the `MEM_UNIT` it owns
(`local_memunit->memory`, here the field `memory`). -/
structure CPU where
  PC_reg : Nat
  A_reg  : Nat
  X_reg  : Nat
  Y_reg  : Nat
  F_reg  : Nat
  SP_reg : Nat
  memory : Nat → Nat
  OPCODE : Nat

/-- Every register holds a value of its C++ type and every memory cell a byte. -/
structure CPU.WF (s : CPU) : Prop where
  hPC  : s.PC_reg < 65536
  hA   : s.A_reg < 256
  hX   : s.X_reg < 256
  hY   : s.Y_reg < 256
  hF   : s.F_reg < 256
  hSP  : s.SP_reg < 256
  hmem : ∀ a, s.memory a < 256
  hOP  : s.OPCODE < 256

/-- Source: `uint8_t seek(uint16_t address) { return memory[address]; }` -/
def seek (s : CPU) (address : Nat) : Nat := s.memory address

/-- Source: `void write(uint16_t address, uint8_t value) { memory[address] = value; }` -/
def write (s : CPU) (address value : Nat) : CPU :=
  { s with memory := fun a => if a = address then value else s.memory a }

/-- Source: `uint8_t fetch1(uint16_t address) { return seek(address); }` -/
def fetch1 (s : CPU) (address : Nat) : Nat := seek s address

/-- Source: `uint16_t fetch2(uint16_t address)
    { return (uint16_t(seek(address + 1)) << 8) + seek(address); }` -/
def fetch2 (s : CPU) (address : Nat) : Nat :=
  ((seek s ((address + 1) % 65536) <<< 8) + seek s address) % 65536

/-- Source: `uint8_t pull() { return seek(256 + (SP_reg++)); }` : reads at the old `SP_reg`,
then increments it. -/
def pull (s : CPU) : Nat × CPU :=
  (seek s (256 + s.SP_reg), { s with SP_reg := (s.SP_reg + 1) % 256 })

/-- Source: `void push(uint8_t value) { write(256 + SP_reg--, value); }` : writes at the old
`SP_reg`, then decrements it. -/
def push (s : CPU) (value : Nat) : CPU :=
  { write s (256 + s.SP_reg) (value % 256) with SP_reg := u8 ((s.SP_reg : Int) - 1) }

/-- Source: `uint8_t read1_PC() { return seek(PC_reg++); }` -/
def read1_PC (s : CPU) : Nat × CPU :=
  (seek s s.PC_reg, { s with PC_reg := (s.PC_reg + 1) % 65536 })

/-- Source: `uint16_t read2_PC()` : `fetch2(PC_reg)` and then `PC_reg += 2`. -/
def read2_PC (s : CPU) : Nat × CPU :=
  (fetch2 s s.PC_reg, { s with PC_reg := (s.PC_reg + 2) % 65536 })

/-- Source: `void update_F_Zero(uint8_t val) { if(val == 0) { F_reg |= _ZERO; } }` -/
def update_F_Zero (s : CPU) (val : Nat) : CPU :=
  if val = 0 then { s with F_reg := s.F_reg ||| _ZERO } else s

/-- Source: `void update_F_Nega(uint8_t val) { if(val & _NEGA) { F_reg |= _NEGA; } }` -/
def update_F_Nega (s : CPU) (val : Nat) : CPU :=
  if val &&& _NEGA ≠ 0 then { s with F_reg := s.F_reg ||| _NEGA } else s

/-- Source: `void update_F_Carry(uint8_t val, uint8_t old_value)
    { if(old_value > val) { F_reg |= _CARRY; } }` -/
def update_F_Carry (s : CPU) (val old_value : Nat) : CPU :=
  if old_value > val then { s with F_reg := s.F_reg ||| _CARRY } else s

/-- Source: `uint8_t rotate_left(uint8_t val)` -/
def rotate_left (s : CPU) (val : Nat) : Nat × CPU :=
  let temp := s.F_reg &&& _CARRY
  let s1 := if val &&& 128 ≠ 0 then { s with F_reg := s.F_reg ||| 1 } else s
  (((val <<< 1) + temp) % 256, s1)

/-- Source: `uint8_t rotate_right(uint8_t val)` -/
def rotate_right (s : CPU) (val : Nat) : Nat × CPU :=
  let temp := s.F_reg &&& _CARRY
  let s1 := if val &&& 1 ≠ 0 then { s with F_reg := s.F_reg ||| 1 } else s
  (((val >>> 1) + (temp <<< 7)) % 256, s1)

/-- Source: `uint8_t shift_left(uint8_t val)` -/
def shift_left (s : CPU) (val : Nat) : Nat × CPU :=
  let s1 := if val &&& 128 ≠ 0 then { s with F_reg := s.F_reg ||| _CARRY } else s
  ((val <<< 1) % 256, s1)

/-- Source: `uint8_t shift_right(uint8_t val) { F_reg |= (val & 1); return val >> 1; }` -/
def shift_right (s : CPU) (val : Nat) : Nat × CPU :=
  (val >>> 1, { s with F_reg := s.F_reg ||| (val &&& 1) })

/-- The two early returns at the top of `CPU::decode`:
`if(op & 3) { return; }` and
`if(((op % 0x10) & 2) && (op != 0xa2)) { return; }`. -/
def decode_filter (op : Nat) : Bool :=
  if op &&& 3 ≠ 0 then true
  else if (op % 0x10) &&& 2 ≠ 0 ∧ op ≠ 0xa2 then true
  else false

/-- The `switch(op)` of `CPU::decode`, one arm per `case` label, in source order. -/
def decode_switch (op : Nat) (s : CPU) : CPU :=
  match op with
  | 0xEA => s                                                   -- NOP
  | 0xE8 =>                                                     -- INX
    let s1 := { s with X_reg := (s.X_reg + 1) % 256 }
    update_F_Zero (update_F_Nega s1 s1.X_reg) s1.X_reg
  | 0xC8 =>                                                     -- INY
    let s1 := { s with Y_reg := (s.Y_reg + 1) % 256 }
    update_F_Zero (update_F_Nega s1 s1.Y_reg) s1.Y_reg
  | 0xCA =>                                                     -- DEX
    let s1 := { s with X_reg := u8 ((s.X_reg : Int) - 1) }
    update_F_Zero (update_F_Nega s1 s1.X_reg) s1.X_reg
  | 0x88 =>                                                     -- DEY
    let s1 := { s with Y_reg := u8 ((s.Y_reg : Int) - 1) }
    update_F_Zero (update_F_Nega s1 s1.Y_reg) s1.Y_reg
  | 0x8A =>                                                     -- TXA
    let s1 := { s with A_reg := s.X_reg }
    update_F_Zero (update_F_Nega s1 s1.A_reg) s1.A_reg
  | 0xAA =>                                                     -- TAX
    let s1 := { s with X_reg := s.A_reg }
    update_F_Zero (update_F_Nega s1 s1.X_reg) s1.X_reg
  | 0x98 =>                                                     -- TYA
    let s1 := { s with A_reg := s.Y_reg }
    update_F_Zero (update_F_Nega s1 s1.A_reg) s1.A_reg
  | 0xA8 =>                                                     -- TAY
    let s1 := { s with Y_reg := s.A_reg }
    update_F_Zero (update_F_Nega s1 s1.Y_reg) s1.Y_reg
  | 0xBA =>                                                     -- TSX
    let s1 := { s with X_reg := s.SP_reg }
    update_F_Zero (update_F_Nega s1 s1.X_reg) s1.X_reg
  | 0x9A =>                                                     -- TXS
    let s1 := { s with SP_reg := s.X_reg }
    update_F_Zero (update_F_Nega s1 s1.SP_reg) s1.SP_reg
  | 0x38 => { s with F_reg := s.F_reg ||| _CARRY }              -- SEC
  | 0x78 => { s with F_reg := s.F_reg ||| _INT_DIS }            -- SEI
  | 0xF8 => { s with F_reg := s.F_reg ||| _DECIM }              -- SED
  | 0x18 => { s with F_reg := s.F_reg ^^^ _CARRY }              -- CLC
  | 0x58 => { s with F_reg := s.F_reg ^^^ _INT_DIS }            -- CLI
  | 0xB8 => { s with F_reg := s.F_reg ^^^ _OVERFL }             -- CLO
  | 0xD8 => { s with F_reg := s.F_reg ^^^ _DECIM }              -- CLD
  | 0x48 => push s s.A_reg                                      -- PHA
  | 0x68 =>                                                     -- PLA
    let (v, s1) := pull s
    let s2 := { s1 with A_reg := v }
    update_F_Zero (update_F_Nega s2 s2.A_reg) s2.A_reg
  | 0x08 => push s s.F_reg                                      -- PHP
  | 0x28 =>                                                     -- PLP
    let (v, s1) := pull s
    { s1 with F_reg := v }
  | 0x00 =>                                                     -- BRK
    let s1 := { s with PC_reg := (s.PC_reg + 2) % 65536 }
    let s2 := push s1 (s1.PC_reg &&& 0xff)
    let s3 := push s2 (s2.PC_reg >>> 8)
    let s4 := { s3 with F_reg := s3.F_reg ||| _BREAK }
    let s5 := push s4 s4.F_reg
    { s5 with PC_reg := fetch2 s5 0xfffe }
  | 0x40 =>                                                     -- RTI
    let (f, s1) := pull s
    let s2 := { s1 with F_reg := f }
    let (h, s3) := pull s2
    let s4 := { s3 with PC_reg := (h <<< 8) % 65536 }
    let (l, s5) := pull s4
    { s5 with PC_reg := (s5.PC_reg + l) % 65536 }
  | 0x60 =>                                                     -- RTS
    let (h, s1) := pull s
    let s2 := { s1 with PC_reg := (h <<< 8) % 65536 }
    let (l, s3) := pull s2
    { s3 with PC_reg := (s3.PC_reg + l) % 65536 }
  | 0xC9 =>                                                     -- CMP imm
    let (m, s1) := read1_PC s
    let temp8 := u8 ((s.A_reg : Int) - (m : Int))
    update_F_Carry (update_F_Zero (update_F_Nega s1 temp8) temp8) s1.A_reg temp8
  | 0xE0 =>                                                     -- CPX imm
    let (m, s1) := read1_PC s
    let temp8 := u8 ((s.X_reg : Int) - (m : Int))
    update_F_Carry (update_F_Zero (update_F_Nega s1 temp8) temp8) s1.X_reg temp8
  | 0xC0 =>                                                     -- CPY imm
    let (m, s1) := read1_PC s
    let temp8 := u8 ((s.Y_reg : Int) - (m : Int))
    update_F_Carry (update_F_Zero (update_F_Nega s1 temp8) temp8) s1.Y_reg temp8
  | 0xA9 =>                                                     -- LDA imm
    let (m, s1) := read1_PC s
    let s2 := { s1 with A_reg := m }
    update_F_Zero (update_F_Nega s2 s2.A_reg) s2.A_reg
  | 0xA2 =>                                                     -- LDX imm
    let (m, s1) := read1_PC s
    let s2 := { s1 with X_reg := m }
    update_F_Zero (update_F_Nega s2 s2.X_reg) s2.X_reg
  | 0xA0 =>                                                     -- LDY imm
    let (m, s1) := read1_PC s
    let s2 := { s1 with Y_reg := m }
    update_F_Zero (update_F_Nega s2 s2.Y_reg) s2.Y_reg
  | 0x69 =>                                                     -- ADC imm
    let temp8 := s.A_reg
    let (m, s1) := read1_PC s
    let s2 := { s1 with A_reg := (s1.A_reg + (m + (s1.F_reg &&& _CARRY))) % 256 }
    update_F_Zero (update_F_Nega (update_F_Carry s2 s2.A_reg temp8) s2.A_reg) s2.A_reg
  | 0xE9 =>                                                     -- SBC imm
    let temp8 := s.A_reg
    let (m, s1) := read1_PC s
    let s2 := { s1 with
      A_reg := u8 ((s1.A_reg : Int) - ((m : Int) - ((s1.F_reg &&& _CARRY : Nat) : Int))) }
    update_F_Zero (update_F_Nega (update_F_Carry s2 s2.A_reg temp8) s2.A_reg) s2.A_reg
  | 0x29 =>                                                     -- AND imm
    let (m, s1) := read1_PC s
    let s2 := { s1 with A_reg := s1.A_reg &&& m }
    update_F_Zero (update_F_Nega s2 s2.A_reg) s2.A_reg
  | 0x49 =>                                                     -- EOR imm
    let (m, s1) := read1_PC s
    let s2 := { s1 with A_reg := s1.A_reg ^^^ m }
    update_F_Zero (update_F_Nega s2 s2.A_reg) s2.A_reg
  | 0x09 =>                                                     -- ORA imm
    let (m, s1) := read1_PC s
    let s2 := { s1 with A_reg := s1.A_reg ||| m }
    update_F_Zero (update_F_Nega s2 s2.A_reg) s2.A_reg
  | 0x2A =>                                                     -- ROL A
    let (v, s1) := rotate_left s s.A_reg
    let s2 := { s1 with A_reg := v }
    update_F_Zero (update_F_Nega s2 s2.A_reg) s2.A_reg
  | 0x6A =>                                                     -- ROR A
    let (v, s1) := rotate_right s s.A_reg
    let s2 := { s1 with A_reg := v }
    update_F_Zero (update_F_Nega s2 s2.A_reg) s2.A_reg
  | 0x0A =>                                                     -- ASL A
    let (v, s1) := shift_left s s.A_reg
    let s2 := { s1 with A_reg := v }
    update_F_Zero (update_F_Nega s2 s2.A_reg) s2.A_reg
  | 0x4A =>                                                     -- LSR A
    let (v, s1) := shift_right s s.A_reg
    let s2 := { s1 with A_reg := v }
    update_F_Zero (update_F_Nega s2 s2.A_reg) s2.A_reg
  | _ => s                                                      -- default

/-- The `case` labels of the switch in `CPU::decode`, in source order. -/
def case_labels : List Nat :=
  [0xEA, 0xE8, 0xC8, 0xCA, 0x88, 0x8A, 0xAA, 0x98, 0xA8, 0xBA, 0x9A,
   0x38, 0x78, 0xF8, 0x18, 0x58, 0xB8, 0xD8, 0x48, 0x68, 0x08, 0x28,
   0x00, 0x40, 0x60, 0xC9, 0xE0, 0xC0, 0xA9, 0xA2, 0xA0,
   0x69, 0xE9, 0x29, 0x49, 0x09, 0x2A, 0x6A, 0x0A, 0x4A]

/-- `void CPU::decode(uint8_t op)` : the illegal-opcode filter, then the switch. -/
def decode (op : Nat) (s : CPU) : CPU :=
  if decode_filter op then s else decode_switch op s

/-- `void CPU::step() { OPCODE = fetch1(PC_reg); decode(OPCODE); }` -/
def step (s : CPU) : CPU :=
  let s1 := { s with OPCODE := fetch1 s s.PC_reg }
  decode s1.OPCODE s1

end MainCpp

namespace Hpp6502

/-! Flag masks and the stack base of `6502.hpp`. -/

def _CARRY     : Nat := 0x01
def _ZERO      : Nat := 0x02
def _INTERRUPT : Nat := 0x04
def _DECIM     : Nat := 0x08
def _BREAK     : Nat := 0x10
def _RESERVED  : Nat := 0x20
def _OVERFLOW  : Nat := 0x40
def _NEGA      : Nat := 0x80

def _STACK_BASE : Nat := 0x100

/-- The 8-bit value of `~mask`, as it acts on a `uint8_t` in `F &= (~mask)`. -/
def not8 (mask : Nat) : Nat := 0xFF ^^^ mask

/-- The processor of `6502.hpp` (`struct CPU`); `memory` is the owned 64 KiB array.
The never-assigned pointers `_op_a`, `_op_b` carry no state and are left out. -/
structure CPU where
  A  : Nat
  X  : Nat
  Y  : Nat
  F  : Nat
  SP : Nat
  PC : Nat
  EA : Nat
  TEMP_1 : Nat
  TEMP_2 : Nat
  _operation : Nat
  _addrmode  : Nat
  _insn      : Nat
  _cycles       : Nat
  _instructions : Nat
  _penalty      : Nat
  memory : Nat → Nat

/-- Source: `uint8_t read(uint16_t address) { return memory->at(address); }` -/
def read (s : CPU) (address : Nat) : Nat := s.memory address

/-- Source: `void write(uint16_t address, uint8_t val) { memory->at(address) = val; }` -/
def write (s : CPU) (address val : Nat) : CPU :=
  { s with memory := fun a => if a = address then val else s.memory a }

/-- Source: `uint8_t pull_8() { SP++; return read(_STACK_BASE + SP); }` -/
def pull_8 (s : CPU) : Nat × CPU :=
  let s1 := { s with SP := (s.SP + 1) % 256 }
  (read s1 (_STACK_BASE + s1.SP), s1)

/-- Source: `void push_8(uint8_t val) { write(_STACK_BASE + SP, val); SP--; }` -/
def push_8 (s : CPU) (val : Nat) : CPU :=
  let s1 := write s (_STACK_BASE + s.SP) (val % 256)
  { s1 with SP := u8 ((s1.SP : Int) - 1) }

/-- The order in which the two operands of `|` in `pull_16` are evaluated; C++ leaves
it unspecified, so the embedding takes it as a parameter. -/
inductive EvalOrder where
  | leftFirst
  | rightFirst
  deriving DecidableEq

/-- Source: `uint16_t pull_16() { return (pull_8() << 8) | pull_8(); }` -/
def pull_16 (o : EvalOrder) (s : CPU) : Nat × CPU :=
  match o with
  | .leftFirst =>
    let (l, s1) := pull_8 s
    let (r, s2) := pull_8 s1
    (((l <<< 8) ||| r) % 65536, s2)
  | .rightFirst =>
    let (r, s1) := pull_8 s
    let (l, s2) := pull_8 s1
    (((l <<< 8) ||| r) % 65536, s2)

/-- Source: `void push_16(uint16_t val) { push_8(val >> 8); push_8(val & 0xff); }` -/
def push_16 (s : CPU) (val : Nat) : CPU :=
  push_8 (push_8 s (val >>> 8)) (val &&& 0xff)

/-- Source: the flag primitives `set_carry() { F |= _CARRY; }`, `clr_carry() { F &= (~_CARRY); }`
and their five siblings. -/
def set_carry (s : CPU) : CPU := { s with F := s.F ||| _CARRY }
def clr_carry (s : CPU) : CPU := { s with F := s.F &&& not8 _CARRY }

def set_zero (s : CPU) : CPU := { s with F := s.F ||| _ZERO }
def clr_zero (s : CPU) : CPU := { s with F := s.F &&& not8 _ZERO }

def set_inter (s : CPU) : CPU := { s with F := s.F ||| _INTERRUPT }
def clr_inter (s : CPU) : CPU := { s with F := s.F &&& not8 _INTERRUPT }

def set_decim (s : CPU) : CPU := { s with F := s.F ||| _DECIM }
def clr_decim (s : CPU) : CPU := { s with F := s.F &&& not8 _DECIM }

def set_ovfl (s : CPU) : CPU := { s with F := s.F ||| _OVERFLOW }
def clr_ovfl (s : CPU) : CPU := { s with F := s.F &&& not8 _OVERFLOW }

def set_nega (s : CPU) : CPU := { s with F := s.F ||| _NEGA }
def clr_nega (s : CPU) : CPU := { s with F := s.F &&& not8 _NEGA }

/-- Source: `bool check_zero(uint16_t n) { return (n & 0xff) == 0; }` -/
def check_zero (n : Nat) : Bool := decide (n &&& 0xff = 0)

/-- Source: `void upd_zero(uint16_t n)` -/
def upd_zero (s : CPU) (n : Nat) : CPU :=
  if check_zero n then set_zero s else clr_zero s

/-- Source: `bool check_carry(uint16_t n) { return (n > 0xff); }` -/
def check_carry (n : Nat) : Bool := decide (n > 0xff)

/-- Source: `void upd_carry(uint16_t n)` -/
def upd_carry (s : CPU) (n : Nat) : CPU :=
  if check_carry n then set_carry s else clr_carry s

/-- Source: `bool check_nega(uint16_t n) { return (n & 0x80); }` -/
def check_nega (n : Nat) : Bool := decide (n &&& 0x80 ≠ 0)

/-- Source: `void upd_nega(uint16_t n)` -/
def upd_nega (s : CPU) (n : Nat) : CPU :=
  if check_nega n then set_nega s else clr_nega s

/-- Source: `bool check_ovfl(uint16_t n, uint8_t a, uint8_t b)
    { return (a ^ n) & (b ^ n) & 0x80; }` -/
def check_ovfl (n a b : Nat) : Bool := decide ((a ^^^ n) &&& (b ^^^ n) &&& 0x80 ≠ 0)

/-- Source: `void upd_ovfl(uint16_t temp, uint8_t operand)` : uses the current `A`. -/
def upd_ovfl (s : CPU) (temp operand : Nat) : CPU :=
  if check_ovfl temp s.A operand then set_ovfl s else clr_ovfl s

/-- The value of a byte read as a twos-complement `int8_t`. -/
def signed8 (b : Nat) : Int := if b < 128 then (b : Int) else (b : Int) - 256

/-- The parts of `tables.hpp` (included by `6502.hpp`, not among the sources) that the core
uses, taken as parameters: the lookup tables `op_table` and `addr_table`, and the enumerators
`imp` and `acc` of `ADDRESSING_MODE`.  Every other mode tag is some other number. -/
structure Tables where
  op_table   : Nat → Nat
  addr_table : Nat → Nat
  imp : Nat
  acc : Nat

/-- Source: `void prep_args(ADDRESSING_MODE addrm)
    { select(addrm) { case imp: case acc: default: return; } }` : every arm returns. -/
def prep_args (T : Tables) (addrm : Nat) (s : CPU) : CPU :=
  if addrm = T.imp then s
  else if addrm = T.acc then s
  else s

/-- Source: `void fetch() { _insn = read(PC++); ... }` -/
def fetch (s : CPU) : CPU :=
  { s with _insn := read s s.PC, PC := (s.PC + 1) % 65536 }

/-- Source: `uint8_t read_pc() { TEMP_1 = read(PC++); ... return TEMP_1; }` -/
def read_pc (s : CPU) : Nat × CPU :=
  (read s s.PC, { s with TEMP_1 := read s s.PC, PC := (s.PC + 1) % 65536 })

/-- Source: `void decode() { _operation = op_table[_insn]; _addrmode = addr_table[_insn]; ... }` -/
def decode (T : Tables) (s : CPU) : CPU :=
  { s with _operation := T.op_table s._insn % 256, _addrmode := T.addr_table s._insn % 256 }

/-- Source: `void execute() { ...; prep_args(_addrmode); }` -/
def execute (T : Tables) (s : CPU) : CPU :=
  prep_args T s._addrmode s

/-- Source: `void tick() { fetch(); decode(); execute(); _instructions++; }` -/
def tick (T : Tables) (s : CPU) : CPU :=
  let s1 := execute T (decode T (fetch s))
  { s1 with _instructions := (s1._instructions + 1) % 2 ^ 64 }

end Hpp6502

/-! Concrete machine states used to evaluate the code. -/

namespace MainCpp

/-- A = 0x50, carry clear, `PC_reg` addressing the operand byte 0x50. -/
def adc_input : CPU :=
  { PC_reg := 0x1000, A_reg := 0x50, X_reg := 0, Y_reg := 0, F_reg := 0, SP_reg := 0xFF,
    memory := fun a => if a = 0x1000 then 0x50 else 0, OPCODE := 0x69 }

/-- A = 0x40, all flags clear, `PC_reg` addressing the operand byte 0x40. -/
def cmp_input : CPU :=
  { PC_reg := 0x1000, A_reg := 0x40, X_reg := 0, Y_reg := 0, F_reg := 0, SP_reg := 0xFF,
    memory := fun a => if a = 0x1000 then 0x40 else 0, OPCODE := 0xC9 }

/-- PC = 0x1000, SP = 0xFF, all flags clear, interrupt vector 0x8000 at 0xFFFE/0xFFFF. -/
def brk_input : CPU :=
  { PC_reg := 0x1000, A_reg := 0, X_reg := 0, Y_reg := 0, F_reg := 0, SP_reg := 0xFF,
    memory := fun a => if a = 0xFFFF then 0x80 else 0, OPCODE := 0x00 }

/-- PC = 0x1000 addressing a NOP byte (0xEA); registers hold recognisable values. -/
def nop_input : CPU :=
  { PC_reg := 0x1000, A_reg := 1, X_reg := 2, Y_reg := 3, F_reg := 0x24, SP_reg := 0xFF,
    memory := fun a => if a = 0x1000 then 0xEA else 0, OPCODE := 0 }

/-- All flags clear, SP = 0xFF, memory all zero. -/
def php_input : CPU :=
  { PC_reg := 0x1000, A_reg := 0, X_reg := 0, Y_reg := 0, F_reg := 0, SP_reg := 0xFF,
    memory := fun _ => 0, OPCODE := 0x08 }

/-- LDY immediate (0xA0) at 0x1000 with its operand 0x42 at 0x1001, PC = 0x1000. -/
def ldy_input : CPU :=
  { PC_reg := 0x1000, A_reg := 0, X_reg := 0, Y_reg := 0, F_reg := 0, SP_reg := 0xFF,
    memory := fun a => if a = 0x1000 then 0xA0 else if a = 0x1001 then 0x42 else 0,
    OPCODE := 0 }

/-- A = 0, all flags clear, `PC_reg` addressing the operand byte 0x42. -/
def lda_input : CPU :=
  { PC_reg := 0x1000, A_reg := 0, X_reg := 0, Y_reg := 0, F_reg := 0, SP_reg := 0xFF,
    memory := fun a => if a = 0x1000 then 0x42 else 0, OPCODE := 0xA9 }

/-- A = 0x42, SP = 0xFF, all flags clear, memory all zero. -/
def pha_input : CPU :=
  { PC_reg := 0x1000, A_reg := 0x42, X_reg := 0, Y_reg := 0, F_reg := 0, SP_reg := 0xFF,
    memory := fun _ => 0, OPCODE := 0x48 }

end MainCpp

namespace Hpp6502

/-- A freshly constructed CPU (`CPU()` zeroes every field and the memory) with SP = 0xFF. -/
def stack_input : CPU :=
  { A := 0, X := 0, Y := 0, F := 0, SP := 0xFF, PC := 0, EA := 0, TEMP_1 := 0, TEMP_2 := 0,
    _operation := 0, _addrmode := 0, _insn := 0, _cycles := 0, _instructions := 0,
    _penalty := 0, memory := fun _ => 0 }

/-- A freshly constructed CPU, SP = 0x00: both pushes of `push_16` wrap or touch 0x0100. -/
def wrap_input : CPU := { stack_input with SP := 0x00 }

/-- A = 0x50 with every flag set. -/
def ovfl_input : CPU := { stack_input with A := 0x50, F := 0xFF }

/-- Tables in which every opcode has operation 0 and mode tag 10, with `imp` = 0, `acc` = 1. -/
def demo_tables : Tables :=
  { op_table := fun _ => 0, addr_table := fun _ => 10, imp := 0, acc := 1 }

/-- A CPU about to fetch the opcode byte 0xBD at PC = 0xFFFF with recognisable registers. -/
def tick_input : CPU :=
  { stack_input with
    A := 1, X := 2, Y := 3, F := 0x24, SP := 0xFD, PC := 0xFFFF, EA := 0x1234,
    memory := fun a => if a = 0xFFFF then 0xBD else 0 }

end Hpp6502

/-! Bit-level facts shared by both cores. -/

theorem and_two_pow_ne_zero (n k : Nat) : n &&& 2 ^ k ≠ 0 ↔ n.testBit k = true := by
  rw [Nat.and_two_pow]
  cases h : n.testBit k <;> simp

theorem and_0x80_ne_zero (n : Nat) : n &&& 0x80 ≠ 0 ↔ n.testBit 7 = true :=
  and_two_pow_ne_zero n 7

/-- Setting mask `m = 2 ^ k` sets bit `k` and keeps every other bit. -/
theorem testBit_set (F m k i : Nat) (hm : m = 2 ^ k) :
    (F ||| m).testBit i = (F.testBit i || decide (k = i)) := by
  rw [hm, Nat.testBit_or, Nat.testBit_two_pow]

theorem testBit_byte_high (F i : Nat) (hF : F < 256) (hi : 8 ≤ i) : F.testBit i = false := by
  apply Nat.testBit_lt_two_pow
  calc F < 2 ^ 8 := by simpa using hF
    _ ≤ 2 ^ i := Nat.pow_le_pow_right (by decide) hi

theorem testBit_seven (x : Nat) : x.testBit 7 = decide (x / 128 % 2 = 1) := by
  rw [Nat.testBit_to_div_mod]

theorem and_0xff (x : Nat) : x &&& 0xff = x % 256 := by
  have h := Nat.and_pow_two_sub_one_eq_mod x 8
  norm_num at h
  exact h

theorem shl8_or (a b : Nat) (hb : b < 256) : (a <<< 8) ||| b = 256 * a + b := by
  have h := Nat.mul_add_lt_is_or (i := 8) (b := b) (by omega) a
  rw [Nat.shiftLeft_eq, Nat.mul_comm a, ← h]

theorem u8_pred (n : Nat) : u8 ((n : Int) - 1) = (n + 255) % 256 := by
  unfold u8; omega

namespace MainCpp

/-! The flag updates of `main.cpp` only ever set bits. -/

theorem update_F_Zero_testBit (s : CPU) (v i : Nat) :
    (update_F_Zero s v).F_reg.testBit i = (s.F_reg.testBit i || (decide (v = 0) && decide (1 = i))) := by
  unfold update_F_Zero
  split
  · dsimp only; rw [testBit_set _ _ZERO 1 _ rfl]; simp [*]
  · simp [*]

theorem update_F_Nega_testBit (s : CPU) (v i : Nat) :
    (update_F_Nega s v).F_reg.testBit i = (s.F_reg.testBit i || (v.testBit 7 && decide (7 = i))) := by
  unfold update_F_Nega
  have e : v &&& _NEGA ≠ 0 ↔ v.testBit 7 = true := and_two_pow_ne_zero v 7
  by_cases h : v.testBit 7 = true
  · rw [if_pos (e.2 h)]; dsimp only; rw [testBit_set _ _NEGA 7 _ rfl]; simp [h]
  · rw [if_neg (fun hh => h (e.1 hh))]; simp [h]

theorem update_F_Carry_testBit (s : CPU) (v o i : Nat) :
    (update_F_Carry s v o).F_reg.testBit i
      = (s.F_reg.testBit i || (decide (o > v) && decide (0 = i))) := by
  unfold update_F_Carry
  split
  · dsimp only; rw [testBit_set _ _CARRY 0 _ rfl]; simp [*]
  · simp [*]

theorem update_F_Zero_frame (s : CPU) (v : Nat) :
    (update_F_Zero s v).A_reg = s.A_reg ∧ (update_F_Zero s v).PC_reg = s.PC_reg := by
  unfold update_F_Zero; split <;> simp

theorem update_F_Nega_frame (s : CPU) (v : Nat) :
    (update_F_Nega s v).A_reg = s.A_reg ∧ (update_F_Nega s v).PC_reg = s.PC_reg := by
  unfold update_F_Nega; split <;> simp

theorem update_F_Carry_frame (s : CPU) (v o : Nat) :
    (update_F_Carry s v o).A_reg = s.A_reg ∧ (update_F_Carry s v o).PC_reg = s.PC_reg := by
  unfold update_F_Carry; split <;> simp

/-- The `case 0x69` arm written out. -/
theorem decode_switch_adc_eq (s : CPU) :
    decode_switch 0x69 s =
      update_F_Zero (update_F_Nega (update_F_Carry
        { s with PC_reg := (s.PC_reg + 1) % 65536,
                 A_reg := (s.A_reg + (s.memory s.PC_reg + (s.F_reg &&& _CARRY))) % 256 }
        ((s.A_reg + (s.memory s.PC_reg + (s.F_reg &&& _CARRY))) % 256) s.A_reg)
        ((s.A_reg + (s.memory s.PC_reg + (s.F_reg &&& _CARRY))) % 256))
        ((s.A_reg + (s.memory s.PC_reg + (s.F_reg &&& _CARRY))) % 256) := by
  simp [decode_switch, read1_PC, seek]

/-- The `case 0xC9` arm written out. -/
theorem decode_switch_cmp_eq (s : CPU) :
    decode_switch 0xC9 s =
      update_F_Carry (update_F_Zero (update_F_Nega
        { s with PC_reg := (s.PC_reg + 1) % 65536 }
        (u8 ((s.A_reg : Int) - (s.memory s.PC_reg : Int))))
        (u8 ((s.A_reg : Int) - (s.memory s.PC_reg : Int))))
        s.A_reg (u8 ((s.A_reg : Int) - (s.memory s.PC_reg : Int))) := by
  simp [decode_switch, read1_PC, seek]

/-- C1 (code defect): `decode(0x69)` is stopped by `if(op & 3) return;` in every state, so ADC
immediate changes nothing; with A = 0x50, operand 0x50 and carry clear it leaves A = 0x50,
F = 0 and PC at the operand, not A = 0xA0 with Overflow and Negative set. -/
theorem decode_adc_imm_at_0x50_0x50 :
    decode_filter 0x69 = true ∧ (∀ s, decode 0x69 s = s) ∧
    adc_input.memory adc_input.PC_reg = 0x50 ∧
    (decode 0x69 adc_input).A_reg = 0x50 ∧ (decode 0x69 adc_input).F_reg = 0 ∧
    (decode 0x69 adc_input).PC_reg = 0x1000 ∧
    ¬ ((decode 0x69 adc_input).A_reg = 0xA0) ∧
    ((decode 0x69 adc_input).F_reg.testBit 6 = false) ∧
    ((decode 0x69 adc_input).F_reg.testBit 7 = false) := by
  refine ⟨by decide, fun s => ?_, by decide, by decide, by decide, by decide, by decide,
    by decide, by decide⟩
  simp [decode, decode_filter]

/-- The text of the `case 0x69` arm, which no call of `decode` reaches: taken alone it would
leave A = r = (a + m + c) mod 256 and PC advanced by one, set Carry when r < a, Zero when
r = 0 and Negative when bit 7 of r is set, clear no flag and never touch Overflow (from
a = 0x50, m = 0x50, F = 0: A = 0xA0 and F = 0x80). -/
theorem decode_switch_adc_arm (s : CPU) :
    (decode_switch 0x69 s).A_reg = (s.A_reg + s.memory s.PC_reg + (s.F_reg &&& 1)) % 256 ∧
    (decode_switch 0x69 s).PC_reg = (s.PC_reg + 1) % 65536 ∧
    ((decode_switch 0x69 s).F_reg.testBit 0 = (s.F_reg.testBit 0 ||
      decide ((s.A_reg + s.memory s.PC_reg + (s.F_reg &&& 1)) % 256 < s.A_reg))) ∧
    ((decode_switch 0x69 s).F_reg.testBit 1 = (s.F_reg.testBit 1 ||
      decide ((s.A_reg + s.memory s.PC_reg + (s.F_reg &&& 1)) % 256 = 0))) ∧
    ((decode_switch 0x69 s).F_reg.testBit 7 = (s.F_reg.testBit 7 ||
      ((s.A_reg + s.memory s.PC_reg + (s.F_reg &&& 1)) % 256).testBit 7)) ∧
    (∀ i, i ≠ 0 → i ≠ 1 → i ≠ 7 →
      (decode_switch 0x69 s).F_reg.testBit i = s.F_reg.testBit i) ∧
    (decode_switch 0x69 adc_input).A_reg = 0xA0 ∧
    (decode_switch 0x69 adc_input).F_reg = 0x80 := by
  have e : s.A_reg + (s.memory s.PC_reg + (s.F_reg &&& _CARRY))
      = s.A_reg + s.memory s.PC_reg + (s.F_reg &&& 1) := by simp [_CARRY]; omega
  rw [decode_switch_adc_eq, e]
  refine ⟨?_, ?_, ?_, ?_, ?_, ?_, by decide, by decide⟩
  · simp [(update_F_Zero_frame _ _).1, (update_F_Nega_frame _ _).1,
      (update_F_Carry_frame _ _ _).1]
  · simp [(update_F_Zero_frame _ _).2, (update_F_Nega_frame _ _).2,
      (update_F_Carry_frame _ _ _).2]
  · rw [update_F_Zero_testBit, update_F_Nega_testBit, update_F_Carry_testBit]; simp
  · rw [update_F_Zero_testBit, update_F_Nega_testBit, update_F_Carry_testBit]; simp
  · rw [update_F_Zero_testBit, update_F_Nega_testBit, update_F_Carry_testBit]; simp
  · intro i h0 h1 h7
    rw [update_F_Zero_testBit, update_F_Nega_testBit, update_F_Carry_testBit]
    simp [Ne.symm h0, Ne.symm h1, Ne.symm h7]

/-- C2 (code defect): `decode(0xC9)` is stopped by `if(op & 3) return;` in every state, so CMP
immediate changes nothing; with A = 0x40 against operand 0x40 and F = 0 it leaves F = 0:
neither Zero nor Carry is set. -/
theorem decode_cmp_imm_at_0x40_0x40 :
    decode_filter 0xC9 = true ∧ (∀ s, decode 0xC9 s = s) ∧
    cmp_input.memory cmp_input.PC_reg = 0x40 ∧
    (decode 0xC9 cmp_input).A_reg = 0x40 ∧ (decode 0xC9 cmp_input).F_reg = 0 ∧
    (decode 0xC9 cmp_input).F_reg.testBit 1 = false ∧
    (decode 0xC9 cmp_input).F_reg.testBit 0 = false := by
  refine ⟨by decide, fun s => ?_, by decide, by decide, by decide, by decide, by decide⟩
  simp [decode, decode_filter]

/-- The text of the `case 0xC9` arm, which no call of `decode` reaches: taken alone it would
leave A unchanged and PC advanced by one, set Zero when a = m and Negative when bit 7 of
(a - m) mod 256 is set, and clear no flag. -/
theorem decode_switch_cmp_arm (s : CPU) (hA : s.A_reg < 256) (hm : s.memory s.PC_reg < 256) :
    (decode_switch 0xC9 s).A_reg = s.A_reg ∧
    (decode_switch 0xC9 s).PC_reg = (s.PC_reg + 1) % 65536 ∧
    ((decode_switch 0xC9 s).F_reg.testBit 1 = (s.F_reg.testBit 1 ||
      decide (s.A_reg = s.memory s.PC_reg))) ∧
    ((decode_switch 0xC9 s).F_reg.testBit 7 = (s.F_reg.testBit 7 ||
      (u8 ((s.A_reg : Int) - (s.memory s.PC_reg : Int))).testBit 7)) ∧
    (∀ i, s.F_reg.testBit i = true → (decode_switch 0xC9 s).F_reg.testBit i = true) ∧
    (∀ i, i ≠ 0 → i ≠ 1 → i ≠ 7 →
      (decode_switch 0xC9 s).F_reg.testBit i = s.F_reg.testBit i) ∧
    (decode_switch 0xC9 cmp_input).A_reg = 0x40 ∧
    (decode_switch 0xC9 cmp_input).F_reg.testBit 1 = true ∧
    (decode_switch 0xC9 cmp_input).F_reg.testBit 7 = false := by
  have hz : u8 ((s.A_reg : Int) - (s.memory s.PC_reg : Int)) = 0 ↔
      s.A_reg = s.memory s.PC_reg := by unfold u8; omega
  rw [decode_switch_cmp_eq]
  refine ⟨?_, ?_, ?_, ?_, ?_, ?_, by decide, by decide, by decide⟩
  · simp [(update_F_Zero_frame _ _).1, (update_F_Nega_frame _ _).1,
      (update_F_Carry_frame _ _ _).1]
  · simp [(update_F_Zero_frame _ _).2, (update_F_Nega_frame _ _).2,
      (update_F_Carry_frame _ _ _).2]
  · rw [update_F_Carry_testBit, update_F_Zero_testBit, update_F_Nega_testBit]; simp [hz]
  · rw [update_F_Carry_testBit, update_F_Zero_testBit, update_F_Nega_testBit]; simp
  · intro i hi
    rw [update_F_Carry_testBit, update_F_Zero_testBit, update_F_Nega_testBit]; simp [hi]
  · intro i h0 h1 h7
    rw [update_F_Carry_testBit, update_F_Zero_testBit, update_F_Nega_testBit]
    simp [Ne.symm h0, Ne.symm h1, Ne.symm h7]

/-- The Carry update in the text of the `case 0xC9` arm: `update_F_Carry(A_reg, temp8)` would set
Carry when the difference exceeds A, that is when a < m, the reverse of the SBC arm. -/
theorem decode_switch_cmp_carry (s : CPU) (hA : s.A_reg < 256)
    (hm : s.memory s.PC_reg < 256) :
    (decode_switch 0xC9 s).F_reg.testBit 0 =
      (s.F_reg.testBit 0 || decide (s.A_reg < s.memory s.PC_reg)) := by
  have hc : u8 ((s.A_reg : Int) - (s.memory s.PC_reg : Int)) > s.A_reg ↔
      s.A_reg < s.memory s.PC_reg := by unfold u8; omega
  rw [decode_switch_cmp_eq, update_F_Carry_testBit, update_F_Zero_testBit,
    update_F_Nega_testBit]
  simp [hc]

/-! Stack, BRK, PHP, NOP and the illegal opcodes. -/

theorem push_SP (s : CPU) (v : Nat) : (push s v).SP_reg = (s.SP_reg + 255) % 256 := by
  simp [push, u8_pred]

theorem push_memory (s : CPU) (v a : Nat) :
    (push s v).memory a = if a = 256 + s.SP_reg then v % 256 else s.memory a := by
  simp [push, write]

theorem push_PC (s : CPU) (v : Nat) : (push s v).PC_reg = s.PC_reg := by
  simp [push, write]

theorem push_F (s : CPU) (v : Nat) : (push s v).F_reg = s.F_reg := by
  simp [push, write]

theorem decode_brk_eq (s : CPU) :
    decode 0x00 s =
      { push { push (push { s with PC_reg := (s.PC_reg + 2) % 65536 }
                  (((s.PC_reg + 2) % 65536) &&& 0xff)) (((s.PC_reg + 2) % 65536) >>> 8) with
                F_reg := s.F_reg ||| _BREAK } (s.F_reg ||| _BREAK) with
        PC_reg := fetch2 (push { push (push { s with PC_reg := (s.PC_reg + 2) % 65536 }
                  (((s.PC_reg + 2) % 65536) &&& 0xff)) (((s.PC_reg + 2) % 65536) >>> 8) with
                F_reg := s.F_reg ||| _BREAK } (s.F_reg ||| _BREAK)) 0xfffe } := by
  simp [decode, decode_filter, decode_switch, push_PC, push_F]

/-- Any opcode with one of its two low bits set is returned unchanged by the first
early return of `CPU::decode`. -/
theorem decode_of_low_bits (op : Nat) (s : CPU) (h : op &&& 3 ≠ 0) : decode op s = s := by
  simp [decode, decode_filter, h]

/-- C3 (counterexample): BRK at PC = 0x1000 with SP = 0xFF stores the low byte 0x02 of the
return address 0x1002 at 0x01FF and the high byte 0x10 below it at 0x01FE: the low byte
is pushed first, not the high byte. -/
theorem decode_brk_pushes_low_byte_first :
    (decode 0x00 brk_input).memory (0x0100 + 0xFF) = 0x02 ∧
    (decode 0x00 brk_input).memory (0x0100 + 0xFE) = 0x10 ∧
    ¬ ((decode 0x00 brk_input).memory (0x0100 + 0xFF) = 0x10 ∧
       (decode 0x00 brk_input).memory (0x0100 + 0xFE) = 0x02) := by
  decide

/-- Memory after BRK: the three pushes, at SP, SP - 1 and SP - 2 (modulo 256). -/
theorem decode_brk_memory (s : CPU) (a : Nat) :
    (decode 0x00 s).memory a =
      if a = 256 + (s.SP_reg + 255 + 255) % 256 then (s.F_reg ||| _BREAK) % 256
      else if a = 256 + (s.SP_reg + 255) % 256 then (((s.PC_reg + 2) % 65536) >>> 8) % 256
      else if a = 256 + s.SP_reg then (((s.PC_reg + 2) % 65536) &&& 0xff) % 256
      else s.memory a := by
  rw [decode_brk_eq]
  simp only [push_memory, push_SP, Nat.add_mod_mod, Nat.mod_add_mod]

/-- C3 (amended): for every well-formed state with PC = p, SP = s and flags f, BRK pushes the
return address r = (p + 2) mod 65536 low byte first (low byte at 0x0100 + s, high byte at
0x0100 + ((s - 1) mod 256)), then the status byte with Break (0x10) set at
0x0100 + ((s - 2) mod 256), leaves SP = (s - 3) mod 256 and sets PC to
mem[0xFFFE] + 256 * mem[0xFFFF]. -/
theorem decode_brk_spec (s : CPU) (h : s.WF) :
    (decode 0x00 s).memory (0x0100 + s.SP_reg) = ((s.PC_reg + 2) % 65536) &&& 0xff ∧
    (decode 0x00 s).memory (0x0100 + (s.SP_reg + 255) % 256) = ((s.PC_reg + 2) % 65536) >>> 8 ∧
    (decode 0x00 s).memory (0x0100 + (s.SP_reg + 254) % 256) = s.F_reg ||| 0x10 ∧
    (decode 0x00 s).SP_reg = (s.SP_reg + 253) % 256 ∧
    (decode 0x00 s).PC_reg = s.memory 0xFFFE + 256 * s.memory 0xFFFF := by
  obtain ⟨hPC, hA, hX, hY, hF, hSP, hmem, hOP⟩ := h
  have hlo : ((s.PC_reg + 2) % 65536) &&& 0xff < 256 := by
    have := Nat.and_le_right (n := (s.PC_reg + 2) % 65536) (m := 0xff); omega
  have hhi : ((s.PC_reg + 2) % 65536) >>> 8 < 256 := by
    rw [Nat.shiftRight_eq_div_pow]; omega
  have hFB : s.F_reg ||| 0x10 < 256 := Nat.or_lt_two_pow (n := 8) hF (by decide)
  have h1 := hmem 0xFFFE
  have h2 := hmem 0xFFFF
  refine ⟨?_, ?_, ?_, ?_, ?_⟩
  · rw [decode_brk_memory]; simp only [_BREAK]; split_ifs <;> omega
  · rw [decode_brk_memory]; simp only [_BREAK]; split_ifs <;> omega
  · rw [decode_brk_memory]; simp only [_BREAK]; split_ifs <;> omega
  · rw [decode_brk_eq]; simp only [push_SP]; omega
  · rw [decode_brk_eq]
    simp only [push_memory, push_SP, fetch2, seek, _BREAK, Nat.shiftLeft_eq, Nat.reduceAdd,
      Nat.reduceMod, Nat.reducePow]
    split_ifs <;> omega

theorem brk_input_wf : brk_input.WF := by
  constructor <;> simp [brk_input]
  intro a; split <;> omega

theorem decode_brk_spec_witness :
    (decode 0x00 brk_input).memory (0x0100 + brk_input.SP_reg)
      = ((brk_input.PC_reg + 2) % 65536) &&& 0xff ∧
    (decode 0x00 brk_input).memory (0x0100 + (brk_input.SP_reg + 255) % 256)
      = ((brk_input.PC_reg + 2) % 65536) >>> 8 ∧
    (decode 0x00 brk_input).memory (0x0100 + (brk_input.SP_reg + 254) % 256)
      = brk_input.F_reg ||| 0x10 ∧
    (decode 0x00 brk_input).SP_reg = (brk_input.SP_reg + 253) % 256 ∧
    (decode 0x00 brk_input).PC_reg = brk_input.memory 0xFFFE + 256 * brk_input.memory 0xFFFF :=
  decode_brk_spec brk_input brk_input_wf

/-- When the byte at PC is NOP, `step` only records the opcode: PC is not advanced. -/
theorem step_nop (s : CPU) (h : s.memory s.PC_reg = 0xEA) :
    step s = { s with OPCODE := 0xEA } := by
  simp [step, fetch1, seek, h, decode, decode_filter]

/-- C6 (code defect): `step()` on a NOP byte at PC = 0x1000 leaves A, X, Y, F, SP and memory
unchanged, but PC is still 0x1000 afterwards, not 0x1001: `step` reads the opcode with
`fetch1(PC_reg)`, which does not increment PC, and the filter returns before any case. -/
theorem step_nop_keeps_PC :
    nop_input.memory nop_input.PC_reg = 0xEA ∧
    (step nop_input).PC_reg = 0x1000 ∧ (step nop_input).PC_reg ≠ 0x1001 ∧
    (step nop_input).OPCODE = 0xEA ∧
    (step nop_input).A_reg = nop_input.A_reg ∧ (step nop_input).X_reg = nop_input.X_reg ∧
    (step nop_input).Y_reg = nop_input.Y_reg ∧ (step nop_input).F_reg = nop_input.F_reg ∧
    (step nop_input).SP_reg = nop_input.SP_reg ∧
    (step nop_input).memory = nop_input.memory := by
  refine ⟨by decide, by decide, by decide, by decide, by decide, by decide, by decide,
    by decide, by decide, ?_⟩
  rw [step_nop nop_input (by decide)]

/-- An opcode without a `case` label takes the `default` arm of the switch. -/
theorem decode_switch_default (op : Nat) (s : CPU) (h : op ∉ case_labels) :
    decode_switch op s = s := by
  unfold decode_switch
  split <;> first | rfl | (exfalso; apply h; decide)

/-- Without a `case` label, or with both low bits set, `decode` returns the state as it was. -/
theorem decode_illegal_eq (op : Nat) (s : CPU) (h : op &&& 3 = 3 ∨ op ∉ case_labels) :
    decode op s = s := by
  by_cases hf : decode_filter op = true
  · simp [decode, hf]
  · have h3 : op &&& 3 = 0 := by
      by_contra h0
      exact hf (by simp [decode_filter, h0])
    have hl : op ∉ case_labels := by
      rcases h with h | h
      · omega
      · exact h
    simp [decode, hf, decode_switch_default op s hl]

/-- C9: for every opcode that is illegal by the policy of the decoder (both low bits set, or no
`case` in the switch), `decode(op)` leaves A, X, Y, F, SP and every memory byte unchanged. -/
theorem decode_illegal_frame (op : Nat) (s : CPU) (h : op &&& 3 = 3 ∨ op ∉ case_labels) :
    (decode op s).A_reg = s.A_reg ∧ (decode op s).X_reg = s.X_reg ∧
    (decode op s).Y_reg = s.Y_reg ∧ (decode op s).F_reg = s.F_reg ∧
    (decode op s).SP_reg = s.SP_reg ∧ ∀ a, (decode op s).memory a = s.memory a := by
  rw [decode_illegal_eq op s h]
  simp

theorem decode_illegal_frame_witness :
    (decode 0x04 nop_input).A_reg = nop_input.A_reg ∧
    (decode 0x04 nop_input).X_reg = nop_input.X_reg ∧
    (decode 0x04 nop_input).Y_reg = nop_input.Y_reg ∧
    (decode 0x04 nop_input).F_reg = nop_input.F_reg ∧
    (decode 0x04 nop_input).SP_reg = nop_input.SP_reg ∧
    ∀ a, (decode 0x04 nop_input).memory a = nop_input.memory a :=
  decode_illegal_frame 0x04 nop_input (Or.inr (by decide))

/-- What PHP does: one push of the flag byte as it is. -/
theorem decode_php_eq (s : CPU) : decode 0x08 s = push s s.F_reg := by
  have hf : decode_filter 0x08 = false := by decide
  simp [decode, hf, decode_switch]

/-- C10 (counterexample): with F = 0 and SP = 0xFF, PHP writes 0x00 and BRK writes 0x10 to
the stack page: in neither byte is bit 5 (0x20) set. -/
theorem pushed_flags_reserved_clear :
    (decode 0x08 php_input).memory (0x0100 + 0xFF) = 0x00 ∧
    ((decode 0x08 php_input).memory (0x0100 + 0xFF)).testBit 5 = false ∧
    (decode 0x00 brk_input).memory (0x0100 + 0xFD) = 0x10 ∧
    ((decode 0x00 brk_input).memory (0x0100 + 0xFD)).testBit 5 = false := by
  decide

/-- C10 (amended): the status byte that PHP writes at 0x0100 + SP is F itself, and the one
that BRK writes at 0x0100 + ((SP - 2) mod 256) is F with Break (0x10) set; in both, bit 5
(Reserved) is set exactly when it was set in the prior F. -/
theorem pushed_flags_spec (s : CPU) (h : s.WF) :
    (decode 0x08 s).memory (0x0100 + s.SP_reg) = s.F_reg ∧
    (decode 0x00 s).memory (0x0100 + (s.SP_reg + 254) % 256) = s.F_reg ||| 0x10 ∧
    ((decode 0x08 s).memory (0x0100 + s.SP_reg)).testBit 5 = s.F_reg.testBit 5 ∧
    ((decode 0x00 s).memory (0x0100 + (s.SP_reg + 254) % 256)).testBit 5
      = s.F_reg.testBit 5 := by
  obtain ⟨hPC, hA, hX, hY, hF, hSP, hmem, hOP⟩ := h
  have hFB : s.F_reg ||| 0x10 < 256 := Nat.or_lt_two_pow (n := 8) hF (by decide)
  have e1 : (decode 0x08 s).memory (0x0100 + s.SP_reg) = s.F_reg := by
    rw [decode_php_eq, push_memory]
    split_ifs <;> omega
  have e2 : (decode 0x00 s).memory (0x0100 + (s.SP_reg + 254) % 256) = s.F_reg ||| 0x10 := by
    rw [decode_brk_memory]; simp only [_BREAK]; split_ifs <;> omega
  refine ⟨e1, e2, by rw [e1], ?_⟩
  rw [e2, Nat.testBit_or]
  have : Nat.testBit 0x10 5 = false := by decide
  simp [this]

theorem php_input_wf : php_input.WF := by
  constructor <;> simp [php_input]

theorem pushed_flags_spec_witness :
    (decode 0x08 php_input).memory (0x0100 + php_input.SP_reg) = php_input.F_reg ∧
    (decode 0x00 php_input).memory (0x0100 + (php_input.SP_reg + 254) % 256)
      = php_input.F_reg ||| 0x10 ∧
    ((decode 0x08 php_input).memory (0x0100 + php_input.SP_reg)).testBit 5
      = php_input.F_reg.testBit 5 ∧
    ((decode 0x00 php_input).memory (0x0100 + (php_input.SP_reg + 254) % 256)).testBit 5
      = php_input.F_reg.testBit 5 :=
  pushed_flags_spec php_input php_input_wf

end MainCpp

namespace Hpp6502

theorem testBit_not8 (m i : Nat) : (not8 m).testBit i = (decide (i < 8) ^^ m.testBit i) := by
  have h : (0xFF : Nat) = 2 ^ 8 - 1 := by norm_num
  unfold not8
  rw [Nat.testBit_xor, h, Nat.testBit_two_pow_sub_one]

/-- Clearing mask `m = 2 ^ k` of a byte clears bit `k` and keeps every other bit. -/
theorem testBit_clr (F m k i : Nat) (hF : F < 256) (hm : m = 2 ^ k) :
    (F &&& not8 m).testBit i = (F.testBit i && !decide (k = i)) := by
  rw [hm, Nat.testBit_and, testBit_not8, Nat.testBit_two_pow]
  by_cases hi : i < 8
  · by_cases hk : k = i <;> simp [hi, hk]
  · rw [testBit_byte_high F i hF (by omega)]; simp

/-- C7: after `upd_zero(n)` the Zero bit (bit 1, mask 0x02) of F is set iff `(n & 0xFF) == 0`;
after `upd_nega(n)` the Negative bit (bit 7, mask 0x80) is set iff bit 7 of n is set; after
`upd_carry(n)` the Carry bit (bit 0, mask 0x01) is set iff `n > 0xFF`; each time every
other bit of F keeps its value. -/
theorem upd_flags_spec (s : CPU) (n : Nat) (hF : s.F < 256) :
    ((upd_zero s n).F.testBit 1 = decide (n &&& 0xFF = 0) ∧
      ∀ i, i ≠ 1 → (upd_zero s n).F.testBit i = s.F.testBit i) ∧
    ((upd_nega s n).F.testBit 7 = n.testBit 7 ∧
      ∀ i, i ≠ 7 → (upd_nega s n).F.testBit i = s.F.testBit i) ∧
    ((upd_carry s n).F.testBit 0 = decide (n > 0xFF) ∧
      ∀ i, i ≠ 0 → (upd_carry s n).F.testBit i = s.F.testBit i) := by
  have e80 : n &&& 0x80 ≠ 0 ↔ n.testBit 7 = true := and_two_pow_ne_zero n 7
  refine ⟨⟨?_, ?_⟩, ⟨?_, ?_⟩, ⟨?_, ?_⟩⟩
  · unfold upd_zero check_zero set_zero clr_zero
    by_cases h : n &&& 0xff = 0
    · simp only [h, decide_True, if_true]
      rw [testBit_set _ _ZERO 1 _ rfl]; simp
    · simp only [h, decide_False, Bool.false_eq_true, if_false]
      rw [testBit_clr _ _ZERO 1 _ hF rfl]; simp
  · intro i hi
    unfold upd_zero check_zero set_zero clr_zero
    split
    · dsimp only; rw [testBit_set _ _ZERO 1 _ rfl]; simp [Ne.symm hi]
    · dsimp only; rw [testBit_clr _ _ZERO 1 _ hF rfl]; simp [Ne.symm hi]
  · unfold upd_nega check_nega set_nega clr_nega
    by_cases h : n.testBit 7 = true
    · have h1 : n &&& 0x80 ≠ 0 := e80.2 h
      simp only [h1, ne_eq, not_false_eq_true, decide_True, if_true]
      rw [testBit_set _ _NEGA 7 _ rfl]; simp [h]
    · have h1 : ¬ (n &&& 0x80 ≠ 0) := fun hh => h (e80.1 hh)
      simp only [h1, decide_False, Bool.false_eq_true, if_false]
      rw [testBit_clr _ _NEGA 7 _ hF rfl]; simp [h]
  · intro i hi
    unfold upd_nega check_nega set_nega clr_nega
    split
    · dsimp only; rw [testBit_set _ _NEGA 7 _ rfl]; simp [Ne.symm hi]
    · dsimp only; rw [testBit_clr _ _NEGA 7 _ hF rfl]; simp [Ne.symm hi]
  · unfold upd_carry check_carry set_carry clr_carry
    by_cases h : n > 0xff
    · simp only [h, decide_True, if_true]
      rw [testBit_set _ _CARRY 0 _ rfl]; simp
    · simp only [h, decide_False, Bool.false_eq_true, if_false]
      rw [testBit_clr _ _CARRY 0 _ hF rfl]; simp
  · intro i hi
    unfold upd_carry check_carry set_carry clr_carry
    split
    · dsimp only; rw [testBit_set _ _CARRY 0 _ rfl]; simp [Ne.symm hi]
    · dsimp only; rw [testBit_clr _ _CARRY 0 _ hF rfl]; simp [Ne.symm hi]

/-- The expression of `check_ovfl` is nonzero exactly when the signs (bit 7) of both
inputs differ from the sign of `n`. -/
theorem upd_flags_spec_witness :
    ((upd_zero ovfl_input 0x100).F.testBit 1 = decide (0x100 &&& 0xFF = 0) ∧
      ∀ i, i ≠ 1 → (upd_zero ovfl_input 0x100).F.testBit i = ovfl_input.F.testBit i) ∧
    ((upd_nega ovfl_input 0x100).F.testBit 7 = Nat.testBit 0x100 7 ∧
      ∀ i, i ≠ 7 → (upd_nega ovfl_input 0x100).F.testBit i = ovfl_input.F.testBit i) ∧
    ((upd_carry ovfl_input 0x100).F.testBit 0 = decide (0x100 > 0xFF) ∧
      ∀ i, i ≠ 0 → (upd_carry ovfl_input 0x100).F.testBit i = ovfl_input.F.testBit i) :=
  upd_flags_spec ovfl_input 0x100 (by decide)

/-- The expression of `check_ovfl` is nonzero exactly when the signs (bit 7) of both
inputs differ from the sign of `n`. -/
theorem check_ovfl_iff (n a b : Nat) :
    (a ^^^ n) &&& (b ^^^ n) &&& 0x80 ≠ 0 ↔
      (a / 128 % 2 ≠ n / 128 % 2 ∧ b / 128 % 2 ≠ n / 128 % 2) := by
  have e : (0x80 : Nat) = 2 ^ 7 := by norm_num
  rw [e, and_two_pow_ne_zero, Nat.testBit_and, Nat.testBit_xor, Nat.testBit_xor,
    testBit_seven, testBit_seven, testBit_seven]
  by_cases h1 : a / 128 % 2 = 1 <;> by_cases h2 : b / 128 % 2 = 1 <;>
    by_cases h3 : n / 128 % 2 = 1 <;> simp [h1, h2, h3] <;> omega

/-- C8: with `temp = A + m + c` (c the carry-in), `upd_ovfl(temp, m)` leaves the Overflow
bit (bit 6, mask 0x40) set iff `((A ^ temp) & (m ^ temp) & 0x80) != 0`, and that holds iff
the signed 8-bit sum `signed(A) + signed(m) + c` lies outside [-128, 127]; otherwise the
bit is clear. -/
theorem upd_ovfl_spec (s : CPU) (m c : Nat) (hA : s.A < 256) (hm : m < 256) (hc : c < 2) :
    ((upd_ovfl s (s.A + m + c) m).F.testBit 6 = true ↔
        (s.A ^^^ (s.A + m + c)) &&& (m ^^^ (s.A + m + c)) &&& 0x80 ≠ 0) ∧
    ((s.A ^^^ (s.A + m + c)) &&& (m ^^^ (s.A + m + c)) &&& 0x80 ≠ 0 ↔
        (signed8 s.A + signed8 m + (c : Int) < -128 ∨
          127 < signed8 s.A + signed8 m + (c : Int))) := by
  constructor
  · unfold upd_ovfl check_ovfl set_ovfl clr_ovfl
    by_cases h : (s.A ^^^ (s.A + m + c)) &&& (m ^^^ (s.A + m + c)) &&& 0x80 ≠ 0
    · simp only [h, ne_eq, not_false_eq_true, decide_True, if_true]
      rw [testBit_set _ _OVERFLOW 6 _ rfl]; simp
    · simp only [h, decide_False, Bool.false_eq_true, if_false]
      rw [Nat.testBit_and, testBit_not8]
      have h64 : Nat.testBit _OVERFLOW 6 = true := by decide
      simp [h64]
  · rw [check_ovfl_iff]
    unfold signed8
    split_ifs <;> omega

theorem upd_ovfl_spec_witness :
    ((upd_ovfl ovfl_input (ovfl_input.A + 0x50 + 0) 0x50).F.testBit 6 = true ↔
        (ovfl_input.A ^^^ (ovfl_input.A + 0x50 + 0)) &&&
          (0x50 ^^^ (ovfl_input.A + 0x50 + 0)) &&& 0x80 ≠ 0) ∧
    ((ovfl_input.A ^^^ (ovfl_input.A + 0x50 + 0)) &&&
          (0x50 ^^^ (ovfl_input.A + 0x50 + 0)) &&& 0x80 ≠ 0 ↔
        (signed8 ovfl_input.A + signed8 0x50 + ((0 : Nat) : Int) < -128 ∨
          127 < signed8 ovfl_input.A + signed8 0x50 + ((0 : Nat) : Int))) :=
  upd_ovfl_spec ovfl_input 0x50 0 (by decide) (by decide) (by decide)

/-- The stack pointer after `push_8`. -/
theorem push_8_SP (s : CPU) (v : Nat) : (push_8 s v).SP = (s.SP + 255) % 256 := by
  simp only [push_8, write, u8]; omega

theorem push_8_memory (s : CPU) (v a : Nat) :
    (push_8 s v).memory a = if a = _STACK_BASE + s.SP then v % 256 else s.memory a := by
  simp [push_8, write]

theorem pull_8_SP (s : CPU) : (pull_8 s).2.SP = (s.SP + 1) % 256 := by
  simp [pull_8]

theorem pull_8_memory (s : CPU) : (pull_8 s).2.memory = s.memory := by
  simp [pull_8]

theorem pull_8_val (s : CPU) : (pull_8 s).1 = s.memory (_STACK_BASE + (s.SP + 1) % 256) := by
  simp [pull_8, read]

/-- C5: for every 16-bit x and every initial stack pointer s (0x00 and 0x01 included),
`push_16(x)` followed by `pull_16()` leaves SP equal to s, whichever operand of `|`
is evaluated first. -/
theorem push_16_pull_16_SP (o : EvalOrder) (s : CPU) (x : Nat) (hSP : s.SP < 256) :
    (pull_16 o (push_16 s x)).2.SP = s.SP := by
  cases o <;>
    simp only [pull_16, push_16, pull_8_SP, push_8_SP] <;> omega

theorem push_16_pull_16_SP_witness :
    (pull_16 EvalOrder.leftFirst (push_16 wrap_input 0x1234)).2.SP = wrap_input.SP :=
  push_16_pull_16_SP EvalOrder.leftFirst wrap_input 0x1234 (by decide)

/-- C4 (code defect): after `push_16(0x1234)` the low byte 0x34 is on top of the stack, so
`(pull_8() << 8) | pull_8()` with its left operand evaluated first returns 0x3412, not
0x1234; only with the right operand evaluated first does it return 0x1234. -/
theorem pull_16_after_push_16_at_0x1234 :
    (pull_16 EvalOrder.leftFirst (push_16 stack_input 0x1234)).1 = 0x3412 ∧
    (pull_16 EvalOrder.rightFirst (push_16 stack_input 0x1234)).1 = 0x1234 ∧
    (push_16 stack_input 0x1234).memory 0x01FF = 0x12 ∧
    (push_16 stack_input 0x1234).memory 0x01FE = 0x34 := by
  decide

/-- The stack pointer after `push_16`. -/
theorem push_16_SP (s : CPU) (x : Nat) : (push_16 s x).SP = (s.SP + 254) % 256 := by
  simp only [push_16, push_8_SP]; omega

/-- The high byte lies where SP pointed before `push_16`. -/
theorem push_16_memory_hi (s : CPU) (x : Nat) :
    (push_16 s x).memory (_STACK_BASE + s.SP) = (x >>> 8) % 256 := by
  simp only [push_16, push_8_memory, push_8_SP, _STACK_BASE]
  split_ifs <;> first | rfl | omega

/-- The low byte lies one below (modulo 256) where SP pointed before `push_16`. -/
theorem push_16_memory_lo (s : CPU) (x : Nat) :
    (push_16 s x).memory (_STACK_BASE + (s.SP + 255) % 256) = (x &&& 0xff) % 256 := by
  simp only [push_16, push_8_memory, push_8_SP, _STACK_BASE]
  split_ifs <;> rfl

/-- With the right operand of `|` evaluated first, `pull_16` after `push_16(x)` returns x. -/
theorem pull_16_push_16_rightFirst (s : CPU) (x : Nat) (hSP : s.SP < 256) (hx : x < 65536) :
    (pull_16 EvalOrder.rightFirst (push_16 s x)).1 = x := by
  have e1 : ((s.SP + 254) % 256 + 1) % 256 = (s.SP + 255) % 256 := by omega
  have e2 : ((s.SP + 255) % 256 + 1) % 256 = s.SP := by omega
  have hlo := push_16_memory_lo s x
  have hhi := push_16_memory_hi s x
  simp only [pull_16, pull_8_val, pull_8_SP, pull_8_memory, push_16_SP, e1, e2, hlo, hhi]
  rw [and_0xff, Nat.shiftRight_eq_div_pow, shl8_or _ _ (Nat.mod_lt _ (by decide))]
  omega

/-- With the left operand of `|` evaluated first, `pull_16` after `push_16(x)` returns x with
its two bytes exchanged. -/
theorem pull_16_push_16_leftFirst (s : CPU) (x : Nat) (hSP : s.SP < 256) (hx : x < 65536) :
    (pull_16 EvalOrder.leftFirst (push_16 s x)).1 = 256 * (x % 256) + x / 256 := by
  have e1 : ((s.SP + 254) % 256 + 1) % 256 = (s.SP + 255) % 256 := by omega
  have e2 : ((s.SP + 255) % 256 + 1) % 256 = s.SP := by omega
  have hlo := push_16_memory_lo s x
  have hhi := push_16_memory_hi s x
  simp only [pull_16, pull_8_val, pull_8_SP, pull_8_memory, push_16_SP, e1, e2, hlo, hhi]
  rw [and_0xff, Nat.shiftRight_eq_div_pow, shl8_or _ _ (Nat.mod_lt _ (by decide))]
  have hq : x / 256 < 256 := by omega
  have hr : x % 256 < 256 := by omega
  norm_num
  generalize x / 256 = q at *
  generalize x % 256 = r at *
  omega

end Hpp6502

namespace MainCpp

/-- The pair `update_F_Nega(v); update_F_Zero(v);` changes nothing but F. -/
theorem update_NZ_eq (t : CPU) (v : Nat) :
    update_F_Zero (update_F_Nega t v) v =
      { t with F_reg := (update_F_Zero (update_F_Nega t v) v).F_reg } := by
  unfold update_F_Zero update_F_Nega
  split <;> split <;> rfl

/-- The registers after the pair `update_F_Nega(v); update_F_Zero(v);`. -/
theorem update_NZ_regs (t : CPU) (v : Nat) :
    (update_F_Zero (update_F_Nega t v) v).A_reg = t.A_reg ∧
    (update_F_Zero (update_F_Nega t v) v).X_reg = t.X_reg ∧
    (update_F_Zero (update_F_Nega t v) v).Y_reg = t.Y_reg ∧
    (update_F_Zero (update_F_Nega t v) v).SP_reg = t.SP_reg ∧
    (update_F_Zero (update_F_Nega t v) v).PC_reg = t.PC_reg := by
  rw [update_NZ_eq]
  exact ⟨rfl, rfl, rfl, rfl, rfl⟩

/-- When the byte at PC is LDY immediate (0xA0), `step` loads that same byte into Y and
advances PC by one: the operand read starts at the opcode, because `step` has not moved
PC past it. -/
theorem step_ldy (s : CPU) (h : s.memory s.PC_reg = 0xA0) :
    (step s).Y_reg = 0xA0 ∧ (step s).PC_reg = (s.PC_reg + 1) % 65536 := by
  have hf : decode_filter 0xA0 = false := by decide
  have e : step s = decode 0xA0 { s with OPCODE := 0xA0 } := by
    simp [step, fetch1, seek, h]
  rw [e]
  simp only [decode, hf, decode_switch, read1_PC, seek, Bool.false_eq_true, if_false]
  exact ⟨(update_NZ_regs _ _).2.2.1.trans h, (update_NZ_regs _ _).2.2.2.2⟩

/-- C15 (code defect): with LDY immediate (0xA0) at 0x1000 and operand 0x42 at 0x1001, one
`step()` leaves Y = 0xA0 (the opcode byte itself) and PC = 0x1001, not Y = 0x42 and
PC = 0x1002: `step` reads the opcode with `fetch1(PC_reg)` without advancing PC, so
`read1_PC()` in `case 0xA0` reads the opcode again. -/
theorem step_ldy_imm_loads_opcode :
    ldy_input.memory ldy_input.PC_reg = 0xA0 ∧
    ldy_input.memory (ldy_input.PC_reg + 1) = 0x42 ∧
    (step ldy_input).Y_reg = 0xA0 ∧ (step ldy_input).Y_reg ≠ 0x42 ∧
    (step ldy_input).PC_reg = 0x1001 ∧ (step ldy_input).PC_reg ≠ 0x1002 := by
  decide

/-- C16 (code defect): the first early return `if(op & 3)` rejects 0xA9, 0x69, 0xC9, 0xCA,
0x8A, 0xA2 and 0x0A, all of which have a `case` of their own; 18 of the 40 `case` labels are
rejected; and `decode(0xA9)` with PC addressing the byte 0x42 leaves A = 0. -/
theorem decode_filter_rejects_documented :
    decode_filter 0xA9 = true ∧ decode_filter 0x69 = true ∧ decode_filter 0xC9 = true ∧
    decode_filter 0xCA = true ∧ decode_filter 0x8A = true ∧ decode_filter 0xA2 = true ∧
    decode_filter 0x0A = true ∧
    case_labels.filter decode_filter =
      [0xEA, 0xCA, 0x8A, 0xAA, 0xBA, 0x9A, 0xC9, 0xA9, 0xA2,
       0x69, 0xE9, 0x29, 0x49, 0x09, 0x2A, 0x6A, 0x0A, 0x4A] ∧
    lda_input.memory lda_input.PC_reg = 0x42 ∧
    (decode 0xA9 lda_input).A_reg = 0 ∧ (decode 0xA9 lda_input).A_reg ≠ 0x42 ∧
    (decode_switch 0xA9 lda_input).A_reg = 0x42 := by
  decide

/-- C18 (code defect): CLC, CLI, CLV and CLD are written with `^=`, which toggles: from
F = 0 they leave Carry (0x01), InterruptDisable (0x04), Overflow (0x40) and Decimal (0x08)
set instead of clear. -/
theorem decode_clear_flags_toggle :
    php_input.F_reg = 0 ∧
    (decode 0x18 php_input).F_reg = 0x01 ∧ (decode 0x58 php_input).F_reg = 0x04 ∧
    (decode 0xB8 php_input).F_reg = 0x40 ∧ (decode 0xD8 php_input).F_reg = 0x08 ∧
    (decode 0x18 php_input).F_reg.testBit 0 = true ∧
    (decode 0x58 php_input).F_reg.testBit 2 = true ∧
    (decode 0xB8 php_input).F_reg.testBit 6 = true ∧
    (decode 0xD8 php_input).F_reg.testBit 3 = true := by
  decide

/-- What CLC, CLI, CLV and CLD do to every state: exclusive-or of F with the mask. -/
theorem decode_clear_flags_eq (s : CPU) :
    decode 0x18 s = { s with F_reg := s.F_reg ^^^ _CARRY } ∧
    decode 0x58 s = { s with F_reg := s.F_reg ^^^ _INT_DIS } ∧
    decode 0xB8 s = { s with F_reg := s.F_reg ^^^ _OVERFL } ∧
    decode 0xD8 s = { s with F_reg := s.F_reg ^^^ _DECIM } := by
  have h1 : decode_filter 0x18 = false := by decide
  have h2 : decode_filter 0x58 = false := by decide
  have h3 : decode_filter 0xB8 = false := by decide
  have h4 : decode_filter 0xD8 = false := by decide
  simp [decode, h1, h2, h3, h4, decode_switch]

/-- After `push(v)`, `pull()` reads the cell one below the one just written. -/
theorem pull_push (s : CPU) (v : Nat) (hSP : s.SP_reg < 256) :
    (pull (push s v)).1 = s.memory (256 + (s.SP_reg + 255) % 256) ∧
    (pull (push s v)).2.SP_reg = s.SP_reg := by
  constructor
  · simp only [pull, seek, push_memory, push_SP]
    split_ifs <;> first | rfl | omega
  · simp only [pull, push_SP]; omega

/-- C19 (code defect): with SP = 0xFF and zeroed memory, `push(0x42)` followed by `pull()`
returns 0x00 (the cell at 0x01FE below the written one at 0x01FF) although SP is back at
0xFF; PHA with A = 0x42 followed by PLA leaves A = 0x00. -/
theorem push_pull_returns_cell_below :
    (push pha_input 0x42).memory 0x01FF = 0x42 ∧
    (pull (push pha_input 0x42)).1 = 0x00 ∧ (pull (push pha_input 0x42)).1 ≠ 0x42 ∧
    (pull (push pha_input 0x42)).2.SP_reg = 0xFF ∧
    (decode 0x68 (decode 0x48 pha_input)).A_reg = 0x00 ∧
    (decode 0x68 (decode 0x48 pha_input)).A_reg ≠ pha_input.A_reg := by
  decide

end MainCpp

namespace Hpp6502

/-- C11: for every byte v and stack pointer s, `push_8(v)` writes v at 0x0100 + s and at no
other address and leaves SP = (s - 1) mod 256; a following `pull_8()` returns v, restores
SP = s and writes nowhere; the address written and the address read both lie in the stack
page 0x0100-0x01FF. -/
theorem push_8_pull_8_spec (s : CPU) (v : Nat) (hSP : s.SP < 256) (hv : v < 256) :
    (push_8 s v).memory (0x0100 + s.SP) = v ∧
    (∀ a, a ≠ 0x0100 + s.SP → (push_8 s v).memory a = s.memory a) ∧
    (push_8 s v).SP = (s.SP + 255) % 256 ∧
    (pull_8 (push_8 s v)).1 = v ∧
    (pull_8 (push_8 s v)).1 = (push_8 s v).memory (0x0100 + ((push_8 s v).SP + 1) % 256) ∧
    (pull_8 (push_8 s v)).2.SP = s.SP ∧
    (pull_8 (push_8 s v)).2.memory = (push_8 s v).memory ∧
    (0x0100 ≤ 0x0100 + s.SP ∧ 0x0100 + s.SP ≤ 0x01FF) ∧
    (0x0100 ≤ 0x0100 + ((push_8 s v).SP + 1) % 256 ∧
      0x0100 + ((push_8 s v).SP + 1) % 256 ≤ 0x01FF) := by
  have e : ((s.SP + 255) % 256 + 1) % 256 = s.SP := by omega
  refine ⟨?_, ?_, push_8_SP s v, ?_, ?_, ?_, pull_8_memory _, ⟨by omega, by omega⟩,
    ⟨by omega, by omega⟩⟩
  · rw [push_8_memory]; simp only [_STACK_BASE]; split_ifs <;> omega
  · intro a ha
    rw [push_8_memory]; simp only [_STACK_BASE]; split_ifs <;> first | rfl | omega
  · rw [pull_8_val, push_8_SP, push_8_memory, e]
    simp only [_STACK_BASE]; split_ifs <;> omega
  · rw [pull_8_val]; rfl
  · rw [pull_8_SP, push_8_SP, e]

theorem push_8_pull_8_spec_witness :
    (push_8 wrap_input 0xAB).memory (0x0100 + wrap_input.SP) = 0xAB ∧
    (∀ a, a ≠ 0x0100 + wrap_input.SP → (push_8 wrap_input 0xAB).memory a = wrap_input.memory a) ∧
    (push_8 wrap_input 0xAB).SP = (wrap_input.SP + 255) % 256 ∧
    (pull_8 (push_8 wrap_input 0xAB)).1 = 0xAB ∧
    (pull_8 (push_8 wrap_input 0xAB)).1
      = (push_8 wrap_input 0xAB).memory (0x0100 + ((push_8 wrap_input 0xAB).SP + 1) % 256) ∧
    (pull_8 (push_8 wrap_input 0xAB)).2.SP = wrap_input.SP ∧
    (pull_8 (push_8 wrap_input 0xAB)).2.memory = (push_8 wrap_input 0xAB).memory ∧
    (0x0100 ≤ 0x0100 + wrap_input.SP ∧ 0x0100 + wrap_input.SP ≤ 0x01FF) ∧
    (0x0100 ≤ 0x0100 + ((push_8 wrap_input 0xAB).SP + 1) % 256 ∧
      0x0100 + ((push_8 wrap_input 0xAB).SP + 1) % 256 ≤ 0x01FF) :=
  push_8_pull_8_spec wrap_input 0xAB (by decide) (by decide)

/-- C12: for every 16-bit x and stack pointer s, `push_16(x)` stores the high byte `x >> 8` at
0x0100 + s and the low byte `x & 0xFF` at 0x0100 + ((s - 1) mod 256), changes no other
memory byte, and leaves SP = (s - 2) mod 256. -/
theorem push_16_spec (s : CPU) (x : Nat) (hx : x < 65536) :
    (push_16 s x).memory (0x0100 + s.SP) = x >>> 8 ∧
    (push_16 s x).memory (0x0100 + (s.SP + 255) % 256) = x &&& 0xff ∧
    (∀ a, a ≠ 0x0100 + s.SP → a ≠ 0x0100 + (s.SP + 255) % 256 →
      (push_16 s x).memory a = s.memory a) ∧
    (push_16 s x).SP = (s.SP + 254) % 256 := by
  have hlo : x &&& 0xff < 256 := by rw [and_0xff]; omega
  have hhi : x >>> 8 < 256 := by rw [Nat.shiftRight_eq_div_pow]; omega
  refine ⟨?_, ?_, ?_, push_16_SP s x⟩
  · have h := push_16_memory_hi s x
    simp only [_STACK_BASE] at h
    rw [h, Nat.mod_eq_of_lt hhi]
  · have h := push_16_memory_lo s x
    simp only [_STACK_BASE] at h
    rw [h, Nat.mod_eq_of_lt hlo]
  · intro a h1 h2
    simp only [push_16, push_8_memory, push_8_SP, _STACK_BASE]
    split_ifs <;> first | rfl | omega

theorem push_16_spec_witness :
    (push_16 wrap_input 0x1234).memory (0x0100 + wrap_input.SP) = 0x1234 >>> 8 ∧
    (push_16 wrap_input 0x1234).memory (0x0100 + (wrap_input.SP + 255) % 256)
      = 0x1234 &&& 0xff ∧
    (∀ a, a ≠ 0x0100 + wrap_input.SP → a ≠ 0x0100 + (wrap_input.SP + 255) % 256 →
      (push_16 wrap_input 0x1234).memory a = wrap_input.memory a) ∧
    (push_16 wrap_input 0x1234).SP = (wrap_input.SP + 254) % 256 :=
  push_16_spec wrap_input 0x1234 (by decide)

end Hpp6502

namespace Hpp6502

/-- Whatever the mode tag, `prep_args` returns the state as it was. -/
theorem prep_args_eq (T : Tables) (addrm : Nat) (s : CPU) : prep_args T addrm s = s := by
  unfold prep_args; split_ifs <;> rfl

/-- One `tick` written out: the fetch, the two table lookups and the instruction count. -/
theorem tick_eq (T : Tables) (s : CPU) :
    tick T s =
      { s with _insn := s.memory s.PC, PC := (s.PC + 1) % 65536,
               _operation := T.op_table (s.memory s.PC) % 256,
               _addrmode := T.addr_table (s.memory s.PC) % 256,
               _instructions := (s._instructions + 1) % 2 ^ 64 } := by
  simp [tick, execute, prep_args_eq, decode, fetch, read]

/-- C14 (counterexample): one `tick` of a freshly constructed CPU leaves `_cycles` at 0: the
cycle counter does not increase by at least 1. -/
theorem tick_keeps_cycles_at_zero :
    (tick demo_tables stack_input)._cycles = 0 ∧
    ¬ (stack_input._cycles + 1 ≤ (tick demo_tables stack_input)._cycles) := by
  rw [tick_eq]; decide

/-- C14 (amended): every call of `tick()` increments `_instructions` by exactly 1 (the counter
is 64 bits wide and below its maximum) and leaves the cycle counter `_cycles` and the
penalty flag as they were. -/
theorem tick_counters (T : Tables) (s : CPU) (h : s._instructions + 1 < 2 ^ 64) :
    (tick T s)._instructions = s._instructions + 1 ∧
    (tick T s)._cycles = s._cycles ∧ (tick T s)._penalty = s._penalty := by
  rw [tick_eq]
  exact ⟨Nat.mod_eq_of_lt h, rfl, rfl⟩

theorem tick_counters_witness :
    (tick demo_tables tick_input)._instructions = tick_input._instructions + 1 ∧
    (tick demo_tables tick_input)._cycles = tick_input._cycles ∧
    (tick demo_tables tick_input)._penalty = tick_input._penalty :=
  tick_counters demo_tables tick_input (by decide)

/-- C20: for every CPU state and whatever `op_table` / `addr_table` contain, one `tick()` sets
`_insn` to the byte at the old PC, advances PC by exactly 1 (mod 65536) and leaves A, X, Y,
F, SP, EA and every memory byte unchanged. -/
theorem tick_frame (T : Tables) (s : CPU) :
    (tick T s)._insn = s.memory s.PC ∧
    (tick T s).PC = (s.PC + 1) % 65536 ∧
    (tick T s).A = s.A ∧ (tick T s).X = s.X ∧ (tick T s).Y = s.Y ∧ (tick T s).F = s.F ∧
    (tick T s).SP = s.SP ∧ (tick T s).EA = s.EA ∧
    ∀ a, (tick T s).memory a = s.memory a := by
  rw [tick_eq]
  exact ⟨rfl, rfl, rfl, rfl, rfl, rfl, rfl, rfl, fun _ => rfl⟩

end Hpp6502
